import Mathlib

/-!
# Verification of the sales-coach backend core

Shallow embedding of the session/conversation state machine and
stage-detection engine of the `sales-coach-ai` backend
(`backend/services/claude_service.py`, `backend/services/deepgram_service.py`,
`backend/services/conversation_manager.py`, `backend/utils/validators.py`,
`backend/app.py`, `backend/config.py`), together with theorems settling the
spec claims about it.

Python strings are embedded as `List Char`; Python's substring operator
`needle in haystack` is embedded as `containsSub`; `str.lower()` as a map of
`Char.toLower` (all relevant text and keywords are ASCII); `" ".join(xs)` as
`joinWithSpace`.  Machine floats appear in the source only in the confidence
expression `min(int((max_score / 100) * 100), 100)`; for every reachable
score (a value `10*a + 15*b` with `a ≤ 6`, `b ≤ 1`, hence `≤ 75`) that
expression is exactly `min max_score 100`, which is what we embed
(the round trip `int((s/100)*100) = s` fails only at 29, 57, 58 and
113–116, none of which are reachable scores).
-/

namespace SalesCoach

/-- Embeds Python `a.isPrefixOf`-style check: does `needle` occur at the
start of `haystack`?  (Helper for `containsSub`.) -/
def prefixAt (needle haystack : List Char) : Bool :=
  match needle, haystack with
  | [], _ => true
  | _ :: _, [] => false
  | a :: as, b :: bs => a == b && prefixAt as bs

/-- Embeds the Python substring operator `needle in haystack`. -/
def containsSub (needle : List Char) : List Char → Bool
  | [] => needle.isEmpty
  | c :: rest => prefixAt needle (c :: rest) || containsSub needle rest

/-- Embeds Python `str.lower()` (ASCII). -/
def lowerChars (s : List Char) : List Char :=
  s.map Char.toLower

/-- Embeds Python `" ".join(xs)`. -/
def joinWithSpace : List (List Char) → List Char
  | [] => []
  | [t] => t
  | t :: u :: rest => t ++ ' ' :: joinWithSpace (u :: rest)

/-- One conversation message, as stored by `ConversationManager.add_message`
(`{'text': ..., 'speaker': ..., 'timestamp': ...}`); wall-clock timestamps
are abstracted to a `Nat` tick supplied by the caller. -/
structure Message where
  text : String
  speaker : String
  timestamp : Nat
deriving DecidableEq, Repr

/-- Result dict of `ClaudeService._detect_call_stage`
(`{"stage": ..., "confidence": ..., "time_in_stage": ...}`). -/
structure StageResult where
  stage : String
  confidence : Nat
  time_in_stage : Nat
deriving DecidableEq, Repr

/-- `stage_order` in `ClaudeService._detect_call_stage` (also the insertion
order of the `stage_scores` dict). -/
def stageOrder : List String :=
  ["opening", "discovery", "pitch", "objection", "close"]

/-- The five per-stage keyword lists of `ClaudeService._detect_call_stage`
(`opening_keywords` … `close_keywords`); an unknown stage has no list. -/
def stageKeywords (stage : String) : List String :=
  if stage = "opening" then
    ["hello", "hi", "calling from", "quick question", "introduction"]
  else if stage = "discovery" then
    ["what", "how many", "tell me about", "currently using", "challenge"]
  else if stage = "pitch" then
    ["we offer", "our solution", "it works by", "helps you", "features"]
  else if stage = "objection" then
    ["expensive", "not interested", "call back", "no budget", "think about it"]
  else if stage = "close" then
    ["trial", "demo", "start", "schedule", "meeting", "when can"]
  else []

/-- The keyword-loop contribution to `stage_scores[stage]`: +10 per keyword
of the stage's list occurring as a substring of the lower-cased recent
text. -/
def keywordScore (recentText : List Char) (stage : String) : Nat :=
  10 * (stageKeywords stage).countP (fun k => containsSub k.toList recentText)

/-- The stages boosted by the natural-progression loop
`for i in range(current_index, min(current_index + 2, len(stage_order)))`:
the previous stage and the stage immediately after it, when the previous
stage occurs in `stage_order`. -/
def boostedStages (previousStage : Option String) : List String :=
  match previousStage with
  | none => []
  | some p =>
    match stageOrder.indexOf? p with
    | none => []
    | some ci => (stageOrder.drop ci).take 2

/-- The progression-bias contribution to `stage_scores[stage]` (+15 for each
boosted stage). -/
def progressionBias (previousStage : Option String) (stage : String) : Nat :=
  if stage ∈ boostedStages previousStage then 15 else 0

/-- Final `stage_scores[stage]` in `ClaudeService._detect_call_stage`. -/
def stageScore (recentText : List Char) (previousStage : Option String)
    (stage : String) : Nat :=
  keywordScore recentText stage + progressionBias previousStage stage

/-- `max(stage_scores.values())` (all scores are naturals, so folding from 0
agrees with Python's `max` on the five values). -/
def maxStageScore (recentText : List Char) (previousStage : Option String) : Nat :=
  (stageOrder.map (stageScore recentText previousStage)).foldl Nat.max 0

/-- `" ".join([msg.get('text', '') for msg in conversation_context[-3:]]).lower()`. -/
def recentText3 (conversationContext : List Message) : List Char :=
  lowerChars (joinWithSpace
    ((conversationContext.drop (conversationContext.length - 3)).map
      (fun m => m.text.toList)))

/-- Embeds `ClaudeService._detect_call_stage`.  The winning stage is the
first key of the `stage_scores` dict attaining the maximum (Python's
`max(stage_scores, key=stage_scores.get)` keeps the earliest maximal key);
see the header comment for the confidence expression. -/
def detect_call_stage (conversationContext : List Message)
    (previousStage : Option String := none) : StageResult :=
  if conversationContext.isEmpty then
    { stage := "opening", confidence := 100, time_in_stage := 0 }
  else if maxStageScore (recentText3 conversationContext) previousStage = 0 then
    { stage := "discovery", confidence := 50, time_in_stage := 0 }
  else
    { stage := (stageOrder.find? (fun s =>
        stageScore (recentText3 conversationContext) previousStage s ==
          maxStageScore (recentText3 conversationContext) previousStage)).getD
        "discovery",
      confidence :=
        min (maxStageScore (recentText3 conversationContext) previousStage) 100,
      time_in_stage := 0 }

/-- One entry of the static `CALL_OBJECTIVES` table in `config.py`. -/
structure Objective where
  id : String
  text : String
  keywords : List String
deriving DecidableEq, Repr

/-- `CALL_OBJECTIVES` from `config.py`, as the lookup
`CALL_OBJECTIVES.get(stage, [])` used by `_track_objectives`. -/
def CALL_OBJECTIVES (stage : String) : List Objective :=
  if stage = "opening" then
    [⟨"rapport", "Build rapport",
      ["hello", "hi", "how are you", "thanks", "appreciate"]⟩,
     ⟨"establish_reason", "Establish reason for call",
      ["calling because", "reaching out", "quick question", "wanted to talk"]⟩]
  else if stage = "discovery" then
    [⟨"qualify_volume", "Qualify call volume",
      ["how many calls", "volume", "receive", "per day", "per week"]⟩,
     ⟨"identify_pain", "Identify pain point",
      ["problem", "challenge", "issue", "missing", "frustrated", "difficult"]⟩,
     ⟨"current_solution", "Understand current solution",
      ["currently using", "right now", "today", "process", "handling"]⟩]
  else if stage = "pitch" then
    [⟨"value_prop", "Explain value proposition",
      ["we offer", "solution", "helps you", "can do", "feature"]⟩,
     ⟨"differentiate", "Differentiate from alternatives",
      ["unlike", "better than", "advantage", "different", "unique"]⟩,
     ⟨"address_budget", "Address budget consideration",
      ["cost", "price", "roi", "return", "investment", "save"]⟩]
  else if stage = "objection" then
    [⟨"acknowledge", "Acknowledge concern",
      ["understand", "i hear you", "makes sense", "fair", "get it"]⟩,
     ⟨"reframe", "Reframe perspective",
      ["however", "another way", "consider", "what if", "think about"]⟩,
     ⟨"reengage", "Re-engage conversation",
      ["question", "curious", "wondering", "tell me"]⟩]
  else if stage = "close" then
    [⟨"propose_next", "Propose next step",
      ["trial", "demo", "meeting", "start", "setup", "call"]⟩,
     ⟨"get_commitment", "Get commitment",
      ["yes", "agreed", "sounds good", "interested", "let\x27s do it"]⟩,
     ⟨"schedule", "Schedule follow-up",
      ["when", "calendar", "date", "time", "schedule"]⟩]
  else []

/-- A `{"id": ..., "text": ...}` entry of the `completed` list built by
`_track_objectives`. -/
structure CompletedObjective where
  id : String
  text : String
deriving DecidableEq, Repr

/-- A `{"id": ..., "text": ..., "priority": "high"}` entry of the
`remaining` list built by `_track_objectives`. -/
structure RemainingObjective where
  id : String
  text : String
  priority : String
deriving DecidableEq, Repr

/-- The `{"completed": ..., "remaining": ...}` result of
`_track_objectives`. -/
structure TrackResult where
  completed : List CompletedObjective
  remaining : List RemainingObjective
deriving DecidableEq, Repr

/-- `" ".join([msg.get('text', '') for msg in conversation_context]).lower()`
in `_track_objectives`. -/
def allLowerText (conversationContext : List Message) : List Char :=
  lowerChars (joinWithSpace (conversationContext.map (fun m => m.text.toList)))

/-- `any(keyword in all_text for keyword in obj['keywords'])`. -/
def objectiveHit (allText : List Char) (obj : Objective) : Bool :=
  obj.keywords.any (fun k => containsSub k.toList allText)

/-- Embeds `ClaudeService._track_objectives`: splits the stage's static
checklist into `completed` (some trigger keyword occurs in the whole
lower-cased conversation text) and `remaining` (the rest, at priority
"high").  The Python single pass that appends to one of two lists is
embedded as two order-preserving filters. -/
def track_objectives (conversationContext : List Message)
    (detectedStage : StageResult) : TrackResult :=
  let objectivesForStage := CALL_OBJECTIVES detectedStage.stage
  let allText := allLowerText conversationContext
  { completed :=
      (objectivesForStage.filter (fun o => objectiveHit allText o)).map
        (fun o => ⟨o.id, o.text⟩),
    remaining :=
      (objectivesForStage.filter (fun o => ! objectiveHit allText o)).map
        (fun o => ⟨o.id, o.text, "high"⟩) }

/-- One entry of `ConversationManager.conversations`: the per-session dict
`{'messages': ..., 'start_time': ..., 'last_updated': ...}` plus the
`end_time` key added by `end_conversation`.  ISO wall-clock strings are
abstracted to `Nat` ticks supplied by the caller. -/
structure Conversation where
  messages : List Message
  start_time : Nat
  last_updated : Nat
  end_time : Option Nat
deriving DecidableEq, Repr

/-- The `ConversationManager.conversations` dict, as a partial map from
session ids. -/
abbrev ConvState := String → Option Conversation

/-- Fresh `ConversationManager` (empty `conversations` dict). -/
def emptyConvState : ConvState := fun _ => none

/-- Embeds `ConversationManager.start_conversation`: unconditionally binds
the session id to a fresh empty log (overwriting any existing entry). -/
def start_conversation (st : ConvState) (sessionId : String) (now : Nat) :
    ConvState :=
  fun sid =>
    if sid = sessionId then
      some { messages := [], start_time := now, last_updated := now, end_time := none }
    else st sid

/-- Embeds `ConversationManager.add_message` (speaker defaults to
`'unknown'` at call sites that omit it): implicitly starts the conversation
when the session is unknown, then appends the message and bumps
`last_updated`. -/
def add_message (st : ConvState) (sessionId : String) (text : String)
    (speaker : String) (now : Nat) : ConvState :=
  let st1 := if (st sessionId).isSome then st else start_conversation st sessionId now
  match st1 sessionId with
  | some c =>
    fun sid =>
      if sid = sessionId then
        some { c with
          messages := c.messages ++ [⟨text, speaker, now⟩],
          last_updated := now }
      else st1 sid
  | none => st1

/-- Python list slicing `l[-n:]` for a non-negative `n`: the whole list when
`n = 0` (since `l[-0:] = l[0:]`), otherwise the last `n` elements. -/
def sliceLast (n : Nat) (l : List α) : List α :=
  if n = 0 then l else l.drop (l.length - n)

/-- Embeds `ConversationManager.get_context`
(`return messages[-max_messages:] if messages else []`, `[]` for unknown
sessions; `max_messages` defaults to 15). -/
def get_context (st : ConvState) (sessionId : String)
    (maxMessages : Nat := 15) : List Message :=
  match st sessionId with
  | none => []
  | some c => if c.messages.isEmpty then [] else sliceLast maxMessages c.messages

/-- Embeds `ConversationManager.end_conversation`: records an end tick,
keeps all data. -/
def end_conversation (st : ConvState) (sessionId : String) (now : Nat) :
    ConvState :=
  match st sessionId with
  | none => st
  | some c =>
    fun sid => if sid = sessionId then some { c with end_time := some now } else st sid

/-- Embeds `ConversationManager.clear_conversation`. -/
def clear_conversation (st : ConvState) (sessionId : String) : ConvState :=
  fun sid => if sid = sessionId then none else st sid

/-- Embeds `ConversationManager.get_message_count`. -/
def get_message_count (st : ConvState) (sessionId : String) : Nat :=
  match st sessionId with
  | none => 0
  | some c => c.messages.length

/-- One entry of `DeepgramService.speaker_state`: the per-session dict
`{'current_speaker': ..., 'last_timestamp': ..., 'switch_threshold': 1.5}`.
Timestamps are seconds, embedded as rationals. -/
structure SpeakerState where
  current_speaker : String
  last_timestamp : ℚ
  switch_threshold : ℚ
deriving DecidableEq, Repr

/-- Embeds `DeepgramService._identify_speaker` for one session: given that
session's entry of `speaker_state` (`none` when absent), returns the
attributed label and the updated entry.  The `text` argument is accepted
and ignored, as in the source. -/
def identify_speaker (state : Option SpeakerState) (text : String)
    (timestamp : ℚ) : String × SpeakerState :=
  match state with
  | none =>
    ("Salesperson",
     { current_speaker := "Salesperson", last_timestamp := timestamp,
       switch_threshold := 3 / 2 })
  | some s =>
    let timeSinceLast := timestamp - s.last_timestamp
    let speaker :=
      if timeSinceLast > s.switch_threshold then
        if s.current_speaker = "Salesperson" then "Customer" else "Salesperson"
      else s.current_speaker
    (speaker,
     { current_speaker := speaker, last_timestamp := timestamp,
       switch_threshold := s.switch_threshold })

/-- Runs `_identify_speaker` over a sequence of timestamps for one session,
collecting the returned labels and the final `speaker_state` entry. -/
def runAttribution (state : Option SpeakerState) :
    List ℚ → List String × Option SpeakerState
  | [] => ([], state)
  | t :: rest =>
    let r := identify_speaker state "" t
    let rr := runAttribution (some r.2) rest
    (r.1 :: rr.1, rr.2)

/-- The character class kept by `re.sub(r'[^a-zA-Z0-9_\-.]', '', filename)`
in `sanitize_filename`. -/
def allowedFilenameChar (c : Char) : Bool :=
  (97 ≤ c.toNat && c.toNat ≤ 122) || (65 ≤ c.toNat && c.toNat ≤ 90) ||
  (48 ≤ c.toNat && c.toNat ≤ 57) || c == '_' || c == '-' || c == '.'

/-- The first reassignment in `sanitize_filename`:
`filename.replace('/', '_').replace('\\', '_')`. -/
def sanitizeReplaced (filename : List Char) : List Char :=
  filename.map (fun c => if c == '/' || c == '\\' then '_' else c)

/-- The second reassignment in `sanitize_filename`:
`re.sub(r'[^a-zA-Z0-9_\-.]', '', filename)`. -/
def sanitizeFiltered (filename : List Char) : List Char :=
  (sanitizeReplaced filename).filter allowedFilenameChar

/-- Embeds `utils.validators.sanitize_filename`: `"unknown"` for an empty
input, else replace path separators by `'_'`, drop every character outside
`[a-zA-Z0-9_\-.]`, and truncate to 255 characters. -/
def sanitize_filename (filename : List Char) : List Char :=
  if filename.isEmpty then "unknown".toList
  else if (sanitizeFiltered filename).length > 255 then
    (sanitizeFiltered filename).take 255
  else sanitizeFiltered filename

/-- Per-session suggestion-request events of `app.py`.  `finalTranscript`
is the final-transcript branch of `handle_transcript`, which
unconditionally starts a background thread running `get_ai_suggestion`
(the external call begins); `suggestionResolved` is that thread's external
call completing (successfully or not). -/
inductive OrchestratorEvent
  | finalTranscript (sessionId : String)
  | suggestionResolved (sessionId : String)
deriving DecidableEq, Repr

/-- The multiset of sessions with an external suggestion call in flight, as
a list; `handle_transcript` consults no pending flag and takes no lock
before spawning, so a final transcript always adds one in-flight call. -/
def orchestratorStep (pending : List String) :
    OrchestratorEvent → List String
  | .finalTranscript sid => sid :: pending
  | .suggestionResolved sid => pending.erase sid

/-- Folds `orchestratorStep` over an event trace, starting from no
in-flight calls. -/
def runOrchestrator (events : List OrchestratorEvent) : List String :=
  events.foldl orchestratorStep []

/-- Number of concurrently in-flight external suggestion calls for a
session. -/
def pendingCount (pending : List String) (sessionId : String) : Nat :=
  pending.count sessionId

/-- The `primary_suggestion` sub-dict of a legacy suggestion payload;
`Option` fields model dict-key presence, which `_parse_response` checks. -/
structure PrimarySuggestionDict where
  text : Option String
  reasoning : Option String
  confidence : Option Nat
  urgency : Option String
deriving DecidableEq, Repr

/-- The `context` sub-dict of a legacy suggestion payload. -/
structure SuggestionContextDict where
  call_stage : Option String
  objection_detected : Option Bool
  objection_type : Option String
  buying_signal : Option Bool
  sentiment : Option String
deriving DecidableEq, Repr

/-- A decoded legacy suggestion payload (the dict produced by `json.loads`
in `_parse_response`); `Option` fields model dict-key presence. -/
structure LegacySuggestion where
  primary_suggestion : Option PrimarySuggestionDict
  context : Option SuggestionContextDict
  highlight_toolkit : Option (List String)
  next_move : Option String
deriving DecidableEq, Repr

/-- Embeds `ClaudeService._fallback_suggestion` (every key present). -/
def fallback_suggestion : LegacySuggestion :=
  { primary_suggestion := some
      { text := some "Continue building rapport. Ask them about their current phone challenges.",
        reasoning := some "Default guidance when AI is unavailable",
        confidence := some 50,
        urgency := some "normal" },
    context := some
      { call_stage := some "discovery",
        objection_detected := some false,
        objection_type := some "none",
        buying_signal := some false,
        sentiment := some "neutral" },
    highlight_toolkit := some ["discovery"],
    next_move := some "Listen and qualify their needs" }

/-- Embeds `ClaudeService._parse_response`.  The argument is the result of
`json.loads` on the (code-fence-stripped) response text: `none` for a
`JSONDecodeError`, `some s` for a decoded dict.  Field-presence checks are
performed in source order; a missing `highlight_toolkit` is defaulted to
`[]`. -/
def parse_response (decoded : Option LegacySuggestion) : LegacySuggestion :=
  match decoded with
  | none => fallback_suggestion
  | some s =>
    match s.primary_suggestion with
    | none => fallback_suggestion
    | some p =>
      if s.context.isNone then fallback_suggestion
      else if p.text.isNone || p.reasoning.isNone || p.confidence.isNone then
        fallback_suggestion
      else { s with highlight_toolkit := some (s.highlight_toolkit.getD []) }

/-- Embeds `ClaudeService.get_suggestion`.  The conversation context only
shapes the prompt sent to the external model, so the provider's outcome is
the argument: `.error ()` for any exception raised by the API call,
`.ok decoded` for a returned response text and its decoding. -/
def get_suggestion (providerResult : Except Unit (Option LegacySuggestion)) :
    LegacySuggestion :=
  match providerResult with
  | .error _ => fallback_suggestion
  | .ok decoded => parse_response decoded

/-- The `stage_validation` sub-dict of a coaching-guidance response, as read
by `get_coaching_guidance` (`current_stage`, `confidence`). -/
structure StageValidationDict where
  current_stage : String
  confidence : Nat
deriving DecidableEq, Repr

/-- The `focus` sub-dict of a coaching-guidance response
(`what`, `why`, `urgency`). -/
structure FocusDict where
  what : String
  why : String
  urgency : String
deriving DecidableEq, Repr

/-- One `key_questions` entry (`primary`, `alternatives`, `context`). -/
structure KeyQuestion where
  primary : String
  alternatives : List String
  context : String
deriving DecidableEq, Repr

/-- A decoded coaching-guidance payload (the dict produced by `json.loads`
in `_parse_coaching_response`); `Option` fields model the presence of the
five required top-level keys.  The `objectives` key is only checked for
presence, never read, so its value is abstracted to `Unit`. -/
structure CoachingResponse where
  stage_validation : Option StageValidationDict
  focus : Option FocusDict
  key_questions : Option (List KeyQuestion)
  talking_points : Option (List String)
  objectives : Option Unit
deriving DecidableEq, Repr

/-- Embeds `ClaudeService._parse_coaching_response`: `none` when the
response text is not decodable JSON or any of the five required fields is
missing (the source raises, which `get_coaching_guidance` catches);
otherwise the four field values the caller reads. -/
def parse_coaching_response (decoded : Option CoachingResponse) :
    Option (StageValidationDict × FocusDict × List KeyQuestion × List String) :=
  match decoded with
  | none => none
  | some g =>
    match g.stage_validation, g.focus, g.key_questions, g.talking_points,
        g.objectives with
    | some sv, some f, some kq, some tp, some _ => some (sv, f, kq, tp)
    | _, _, _, _, _ => none

/-- The `stage` block of a coaching-guidance result. -/
structure GuidanceStage where
  current : String
  confidence : Nat
  time_in_stage : Nat
deriving DecidableEq, Repr

/-- The `guidance` block of a coaching-guidance result. -/
structure GuidanceBlock where
  direction : String
  key_questions : List KeyQuestion
  talking_points : List String
  confidence : Nat
deriving DecidableEq, Repr

/-- The `metadata` block of a coaching-guidance result; `int(time.time())`
is abstracted to a `Nat` tick supplied by the caller. -/
structure GuidanceMetadata where
  timestamp : Nat
  session_id : String
  model_version : String
deriving DecidableEq, Repr

/-- The full dict returned by `get_coaching_guidance` /
`_get_fallback_guidance`. -/
structure CoachingGuidance where
  type : String
  stage : GuidanceStage
  focus : FocusDict
  objectives : TrackResult
  guidance : GuidanceBlock
  metadata : GuidanceMetadata
deriving DecidableEq, Repr

/-- One entry of the static `fallback_map` table in
`_get_fallback_guidance` (`direction`, `key_questions`,
`talking_points`). -/
structure FallbackEntry where
  direction : String
  key_questions : List KeyQuestion
  talking_points : List String
deriving DecidableEq, Repr

/-- The `"opening"` entry of `fallback_map` in `_get_fallback_guidance`. -/
def fallbackOpening : FallbackEntry :=
  { direction := "Build rapport and establish the reason for your call",
    key_questions :=
      [⟨"How are you doing today?",
        ["How\x27s everything going?", "How\x27s your day treating you?",
         "Hope you\x27re doing well!"],
        "Use to open conversation warmly"⟩,
       ⟨"Is now a good time to chat for a few minutes?",
        ["Do you have a quick moment?", "Caught you at a good time?",
         "Can I steal 2 minutes of your time?"],
        "Use to respect their time and set expectations"⟩,
       ⟨"Have you heard of us before?",
        ["Are you familiar with our company?",
         "Has our name come across your desk?", "Know what we do?"],
        "Use to gauge awareness and adjust approach"⟩],
    talking_points := ["Be friendly and professional", "Respect their time"] }

/-- The `"discovery"` entry of `fallback_map`. -/
def fallbackDiscovery : FallbackEntry :=
  { direction := "Understand their current situation and pain points",
    key_questions :=
      [⟨"What\x27s your current process for handling calls?",
        ["How do you manage incoming calls now?",
         "Walk me through your call workflow",
         "What\x27s your setup look like for calls?"],
        "Use to understand current state"⟩,
       ⟨"What challenges are you facing?",
        ["What\x27s keeping you up at night?", "Where are the bottlenecks?",
         "What\x27s not working well?"],
        "Use to uncover pain points"⟩,
       ⟨"How many calls do you handle per week?",
        ["What\x27s your call volume like?", "How busy does it get?",
         "What kind of numbers are we talking?"],
        "Use to quantify the problem"⟩],
    talking_points := ["Listen actively", "Ask open-ended questions"] }

/-- The `"pitch"` entry of `fallback_map`. -/
def fallbackPitch : FallbackEntry :=
  { direction := "Present your solution and connect it to their needs",
    key_questions :=
      [⟨"Would it help if you could capture 90% of missed calls?",
        ["What if you never missed another call?",
         "How valuable would recovering lost calls be?",
         "Imagine not losing customers to voicemail"],
        "Use to paint the value picture"⟩,
       ⟨"What would 10 more customers per month be worth?",
        ["What\x27s the value of one new customer?",
         "How much revenue per customer?", "ROI makes sense, right?"],
        "Use to quantify ROI"⟩,
       ⟨"Want to see how it works?",
        ["Should I show you a quick demo?", "Want to check it out?",
         "Can I walk you through it?"],
        "Use to transition to demo"⟩],
    talking_points := ["Focus on benefits not features", "Use their language"] }

/-- The `"objection"` entry of `fallback_map`. -/
def fallbackObjection : FallbackEntry :=
  { direction := "Acknowledge their concern and reframe the conversation",
    key_questions :=
      [⟨"What\x27s your main concern?",
        ["What\x27s holding you back?", "What\x27s the sticking point?",
         "Help me understand your hesitation"],
        "Use to surface real objection"⟩,
       ⟨"Have you thought about the cost of inaction?",
        ["What\x27s it costing you to wait?",
         "How much are missed calls costing now?",
         "What happens if nothing changes?"],
        "Use to reframe price objections"⟩,
       ⟨"What would make this a no-brainer for you?",
        ["What needs to happen for you to move forward?",
         "What would remove all doubt?", "What\x27s missing?"],
        "Use to uncover hidden objections"⟩],
    talking_points := ["Stay calm and empathetic", "Don\x27t get defensive"] }

/-- The `"close"` entry of `fallback_map`. -/
def fallbackClose : FallbackEntry :=
  { direction := "Propose a clear next step and get commitment",
    key_questions :=
      [⟨"Want to try it risk-free for 14 days?",
        ["Should we get you started?", "Ready to test it out?",
         "Want to give it a shot?"],
        "Use to propose trial"⟩,
       ⟨"When would be a good time to start?",
        ["Which day works better for you?", "This week or next?",
         "Sooner or later in the month?"],
        "Use to create urgency"⟩,
       ⟨"Should we schedule a quick demo?",
        ["Want to see it in action first?", "Let me show you how it works?",
         "Can I walk you through it?"],
        "Use to secure next step"⟩],
    talking_points := ["Be direct and assumptive", "Create urgency"] }

/-- `fallback_map` in `_get_fallback_guidance`, as a lookup from stage
names. -/
def fallback_map (stage : String) : Option FallbackEntry :=
  if stage = "opening" then some fallbackOpening
  else if stage = "discovery" then some fallbackDiscovery
  else if stage = "pitch" then some fallbackPitch
  else if stage = "objection" then some fallbackObjection
  else if stage = "close" then some fallbackClose
  else none

/-- Embeds `ClaudeService._get_fallback_guidance`
(`fallback_map.get(stage, fallback_map["discovery"])`, confidence 70,
empty objective lists, `model_version "fallback_v1"`). -/
def get_fallback_guidance (stage : String) (now : Nat) : CoachingGuidance :=
  { type := "coaching_guidance",
    stage := { current := stage, confidence := 70, time_in_stage := 0 },
    focus := { what := ((fallback_map stage).getD fallbackDiscovery).direction,
               why := "Generic fallback guidance", urgency := "medium" },
    objectives := { completed := [], remaining := [] },
    guidance :=
      { direction := ((fallback_map stage).getD fallbackDiscovery).direction,
        key_questions :=
          ((fallback_map stage).getD fallbackDiscovery).key_questions,
        talking_points :=
          ((fallback_map stage).getD fallbackDiscovery).talking_points,
        confidence := 70 },
    metadata := { timestamp := now, session_id := "", model_version := "fallback_v1" } }

/-- Embeds `ClaudeService.get_coaching_guidance`.  Stage detection and
objective tracking run first; the external call's outcome is the
`providerResult` argument (`.error ()` for a raised exception, `.ok
decoded` for a returned response and its decoding).  Any provider failure
or invalid payload falls back to `_get_fallback_guidance` keyed by the
just-detected stage (`detected_stage` is always bound before the API call,
so the `"opening"` default of the source's `locals()` guard is not
reached). -/
def get_coaching_guidance (conversationContext : List Message)
    (previousStage : Option String)
    (providerResult : Except Unit (Option CoachingResponse)) (now : Nat) :
    CoachingGuidance :=
  let detected := detect_call_stage conversationContext previousStage
  let objectives := track_objectives conversationContext detected
  match providerResult with
  | .error _ => get_fallback_guidance detected.stage now
  | .ok decoded =>
    match parse_coaching_response decoded with
    | none => get_fallback_guidance detected.stage now
    | some (sv, f, kq, tp) =>
      { type := "coaching_guidance",
        stage := { current := sv.current_stage, confidence := sv.confidence,
                   time_in_stage := detected.time_in_stage },
        focus := f,
        objectives := objectives,
        guidance := { direction := f.what ++ ". " ++ f.why,
                      key_questions := kq, talking_points := tp,
                      confidence := sv.confidence },
        metadata := { timestamp := now, session_id := "will_be_added_by_app",
                      model_version := "coaching_v1" } }

/-! ## Helper lemmas -/

theorem containsSub_nil_needle (l : List Char) : containsSub [] l = true := by
  cases l <;> simp [containsSub, prefixAt]

theorem prefixAt_append {n h : List Char} (ext : List Char)
    (hp : prefixAt n h = true) : prefixAt n (h ++ ext) = true := by
  induction n generalizing h with
  | nil => simp [prefixAt]
  | cons a as ih =>
    cases h with
    | nil => simp [prefixAt] at hp
    | cons b bs =>
      simp only [prefixAt, Bool.and_eq_true, beq_iff_eq] at hp
      simp only [List.cons_append, prefixAt, Bool.and_eq_true, beq_iff_eq]
      exact ⟨hp.1, ih (h := bs) hp.2⟩

theorem containsSub_append {n h : List Char} (ext : List Char)
    (hc : containsSub n h = true) : containsSub n (h ++ ext) = true := by
  induction h with
  | nil =>
    simp only [containsSub, List.isEmpty_iff] at hc
    subst hc
    exact containsSub_nil_needle ext
  | cons c rest ih =>
    simp only [containsSub, Bool.or_eq_true] at hc
    rcases hc with hc | hc
    · simp only [List.cons_append, containsSub, Bool.or_eq_true]
      exact Or.inl (by simpa using prefixAt_append (h := c :: rest) ext hc)
    · simp only [List.cons_append, containsSub, Bool.or_eq_true]
      exact Or.inr (ih hc)

theorem joinWithSpace_cons_cons (t u : List Char) (rest : List (List Char)) :
    joinWithSpace (t :: u :: rest) = t ++ ' ' :: joinWithSpace (u :: rest) := rfl

theorem joinWithSpace_append {a b : List (List Char)} (ha : a ≠ []) (hb : b ≠ []) :
    joinWithSpace (a ++ b) = joinWithSpace a ++ ' ' :: joinWithSpace b := by
  induction a with
  | nil => exact absurd rfl ha
  | cons t rest ih =>
    cases rest with
    | nil =>
      cases b with
      | nil => exact absurd rfl hb
      | cons u us => simp [joinWithSpace]
    | cons t2 rest2 =>
      have h2 := ih (by simp)
      calc joinWithSpace ((t :: t2 :: rest2) ++ b)
          = t ++ ' ' :: joinWithSpace ((t2 :: rest2) ++ b) := rfl
        _ = t ++ ' ' :: (joinWithSpace (t2 :: rest2) ++ ' ' :: joinWithSpace b) := by
            rw [h2]
        _ = joinWithSpace (t :: t2 :: rest2) ++ ' ' :: joinWithSpace b := by
            rw [joinWithSpace_cons_cons]
            simp [List.append_assoc]

theorem allLowerText_append (ctx more : List Message) :
    ∃ ext, allLowerText (ctx ++ more) = allLowerText ctx ++ ext := by
  rcases more with _ | ⟨m, ms⟩
  · exact ⟨[], by simp⟩
  rcases ctx with _ | ⟨c, cs⟩
  · exact ⟨allLowerText (m :: ms), by simp [allLowerText, lowerChars, joinWithSpace]⟩
  refine ⟨lowerChars (' ' :: joinWithSpace ((m :: ms).map (fun x => x.text.toList))), ?_⟩
  simp only [allLowerText, lowerChars, List.map_append]
  rw [joinWithSpace_append (by simp) (by simp), List.map_append]

theorem foldl_max_init_le (l : List Nat) (init : Nat) :
    init ≤ l.foldl Nat.max init := by
  induction l generalizing init with
  | nil => exact Nat.le_refl _
  | cons a t ih =>
    exact Nat.le_trans (Nat.le_max_left init a) (ih (Nat.max init a))

theorem foldl_max_le_of_mem {l : List Nat} {x : Nat} (hx : x ∈ l) (init : Nat) :
    x ≤ l.foldl Nat.max init := by
  induction l generalizing init with
  | nil => cases hx
  | cons a t ih =>
    rcases List.mem_cons.mp hx with rfl | hx
    · exact Nat.le_trans (Nat.le_max_right init x) (foldl_max_init_le t _)
    · exact ih hx (Nat.max init a)

theorem foldl_max_eq_init_or_mem (l : List Nat) (init : Nat) :
    l.foldl Nat.max init = init ∨ l.foldl Nat.max init ∈ l := by
  induction l generalizing init with
  | nil => exact Or.inl rfl
  | cons a t ih =>
    simp only [List.foldl_cons]
    rcases ih (Nat.max init a) with h | h
    · have hmax : Nat.max init a = init ∨ Nat.max init a = a := max_choice init a
      rcases hmax with hm | hm
      · exact Or.inl (h.trans hm)
      · refine Or.inr ?_
        rw [h.trans hm]
        exact List.mem_cons_self a t
    · exact Or.inr (List.mem_cons_of_mem a h)

theorem find_first_max {f : String → Nat} {l : List String} {m : Nat}
    (hmem : m ∈ l.map f) (hle : ∀ s ∈ l, f s ≤ m) :
    ∃ r, l.find? (fun s => f s == m) = some r ∧ r ∈ l ∧ f r = m ∧
      ∀ s ∈ l.takeWhile (fun s => !(s == r)), f s ≠ m := by
  induction l with
  | nil => simp at hmem
  | cons a t ih =>
    by_cases ha : f a = m
    · refine ⟨a, ?_, List.mem_cons_self a t, ha, ?_⟩
      · simp [List.find?_cons, ha]
      · simp [List.takeWhile_cons]
    · have hmem' : m ∈ t.map f := by
        rcases List.mem_map.mp hmem with ⟨s, hs, hfs⟩
        rcases List.mem_cons.mp hs with rfl | hs
        · exact absurd hfs ha
        · exact List.mem_map.mpr ⟨s, hs, hfs⟩
      rcases ih hmem' (fun s hs => hle s (List.mem_cons_of_mem a hs)) with
        ⟨r, hfind, hrmem, hfr, htw⟩
      have har : a ≠ r := fun e => ha (e ▸ hfr)
      refine ⟨r, ?_, List.mem_cons_of_mem a hrmem, hfr, ?_⟩
      · rw [List.find?_cons, show (f a == m) = false from beq_eq_false_iff_ne.mpr ha]
        exact hfind
      · intro s hs
        rw [List.takeWhile_cons, if_pos (by simpa using har)] at hs
        rcases List.mem_cons.mp hs with rfl | hs
        · exact ha
        · exact htw s hs

/-! ## Claim C2: at-most-one in-flight suggestion request per session -/

/-- **C2, counterexample.**  Two finalized utterances for session `"s"`
arriving before either external call resolves leave two suggestion calls in
flight for `"s"`: `handle_transcript` spawns a background request per final
transcript without consulting any pending flag, so the claimed
at-most-one-in-flight bound fails. -/
theorem claim2_counterexample :
    ¬ (pendingCount
        (runOrchestrator
          [.finalTranscript "s", .finalTranscript "s"]) "s" ≤ 1) := by
  decide

/-- **C2, amended.**  Each finalized utterance unconditionally adds one
in-flight external suggestion call for its session (the source spawns a
fresh daemon thread in `handle_transcript` with no per-session mutual
exclusion, queueing, or dropping), so in-flight calls for one session
accumulate: two finalized utterances with no intervening resolution yield
two concurrent external calls. -/
theorem claim2_requests_accumulate :
    (∀ (pending : List String) (sid : String),
      pendingCount (orchestratorStep pending (.finalTranscript sid)) sid
        = pendingCount pending sid + 1) ∧
    pendingCount (runOrchestrator [.finalTranscript "s", .finalTranscript "s"]) "s"
      = 2 := by
  constructor
  · intro pending sid
    simp [pendingCount, orchestratorStep, List.count_cons]
  · decide

/-! ## Claim C6: bounded recent-context retrieval -/

/-- **C6, counterexample.**  `get_context` with `max_messages = 0` returns
the whole log, not at most 0 messages: Python's `messages[-0:]` is
`messages[0:]`.  Here a session holding one message yields a one-element
context for `N = 0`. -/
theorem claim6_counterexample :
    ¬ ((get_context
          (add_message (start_conversation emptyConvState "s" 0)
            "s" "hello" "Salesperson" 1) "s" 0).length ≤ 0) := by
  decide

/-- **C6, amended.**  For every *positive* `N`, `get_context` returns at
most `N` messages; for every non-negative `N` the result is a suffix of the
stored append-order log (so never reordered, and repeated calls without
intervening appends agree since `get_context` reads the state without
mutating it); an unknown session yields `[]`.  The original claim's bound
fails only at `N = 0`, where the whole log is returned. -/
theorem claim6_recent_context (st : ConvState) (sid : String) (N : Nat) :
    (0 < N → (get_context st sid N).length ≤ N) ∧
    (∀ c, st sid = some c → (get_context st sid N).IsSuffix c.messages) ∧
    (st sid = none → get_context st sid N = []) := by
  refine ⟨?_, ?_, ?_⟩
  · intro hN
    cases hc : st sid with
    | none => simp [get_context, hc]
    | some c =>
      simp only [get_context, hc]
      split
      · simp
      · simp only [sliceLast, if_neg (Nat.pos_iff_ne_zero.mp hN)]
        rw [List.length_drop]
        omega
  · intro c hc
    simp only [get_context, hc]
    split
    · exact List.nil_suffix
    · simp only [sliceLast]
      split
      · exact List.suffix_refl _
      · exact List.drop_suffix _ _
  · intro hc
    simp [get_context, hc]

/-- **C6, witness.**  The amended bound at a concrete state: a session with
one message and `N = 1` returns at most one message. -/
theorem claim6_recent_context_witness :
    (get_context
        (add_message (start_conversation emptyConvState "s" 0)
          "s" "hello" "Salesperson" 1) "s" 1).length ≤ 1 :=
  (claim6_recent_context
    (add_message (start_conversation emptyConvState "s" 0)
      "s" "hello" "Salesperson" 1) "s" 1).1 (by decide)

/-! ## Claim C7: restarting a live session -/

/-- **C7, counterexample.**  Calling `start_conversation` a second time for
a live session does not fail: it silently replaces the log, discarding the
message appended after the first start (message count drops from 1 back to
0).  In the source, `start_conversation` unconditionally rebinds
`self.conversations[session_id]` to a fresh dict and raises nothing. -/
theorem claim7_counterexample :
    get_message_count
        (start_conversation
          (add_message (start_conversation emptyConvState "s" 0)
            "s" "hello" "Salesperson" 1) "s" 2) "s" = 0 ∧
    get_message_count
        (add_message (start_conversation emptyConvState "s" 0)
          "s" "hello" "Salesperson" 1) "s" = 1 := by
  constructor <;> decide

/-- **C7, amended.**  A second `start_conversation` for a live session
succeeds (no AlreadyExists error: the operation is total) and resets that
session to a fresh empty log — discarding previously appended messages —
while leaving every other session untouched. -/
theorem claim7_restart_resets (st : ConvState) (sid : String) (now : Nat) :
    (start_conversation st sid now) sid
      = some { messages := [], start_time := now, last_updated := now,
               end_time := none } ∧
    ∀ other, other ≠ sid → (start_conversation st sid now) other = st other := by
  constructor
  · simp [start_conversation]
  · intro other hne
    simp [start_conversation, hne]

/-- **C7, witness.**  The amended behaviour at a concrete state: restarting
`"s"` resets it and leaves `"t"` alone. -/
theorem claim7_restart_resets_witness :
    (start_conversation
        (add_message (start_conversation emptyConvState "s" 0)
          "s" "hello" "Salesperson" 1) "s" 2) "s"
      = some { messages := [], start_time := 2, last_updated := 2,
               end_time := none } ∧
    (start_conversation
        (add_message (start_conversation emptyConvState "s" 0)
          "s" "hello" "Salesperson" 1) "s" 2) "t"
      = (add_message (start_conversation emptyConvState "s" 0)
          "s" "hello" "Salesperson" 1) "t" :=
  ⟨(claim7_restart_resets
      (add_message (start_conversation emptyConvState "s" 0)
        "s" "hello" "Salesperson" 1) "s" 2).1,
   (claim7_restart_resets
      (add_message (start_conversation emptyConvState "s" 0)
        "s" "hello" "Salesperson" 1) "s" 2).2 "t" (by decide)⟩

/-! ## Claim C10: filename sanitizer -/

/-- **C10, counterexample.**  The sanitizer's output can be empty for a
non-empty input: `"@"` is non-empty, survives the separator replacement
unchanged, and is removed entirely by the character filter, so the
"non-empty" part of the claim fails (and `f"{safe_id}.json"` then names the
bare file `".json"`). -/
theorem claim10_counterexample :
    sanitize_filename ['@'] = [] ∧ (['@'] : List Char) ≠ [] := by
  constructor <;> decide

/-- **C10, amended.**  `sanitize_filename` returns a *possibly empty*
string of length at most 255 whose characters all lie in
`[a-zA-Z0-9_\-.]` — in particular it never contains `'/'` or `'\\'`, so the
sanitized id (suffixed with `".json"` by the endpoints) cannot name a path
outside the calls directory — and the empty input yields `"unknown"`.
Non-emptiness holds only when the input has at least one allowed
character. -/
theorem claim10_sanitize (s : List Char) :
    (∀ c ∈ sanitize_filename s, allowedFilenameChar c = true) ∧
    (sanitize_filename s).length ≤ 255 ∧
    '/' ∉ sanitize_filename s ∧ '\\' ∉ sanitize_filename s ∧
    (s = [] → sanitize_filename s = "unknown".toList) := by
  have hunknown : ∀ x ∈ ("unknown".toList : List Char),
      allowedFilenameChar x = true := by decide
  have hall : ∀ c ∈ sanitize_filename s, allowedFilenameChar c = true := by
    intro c hc
    by_cases hs : s.isEmpty
    · rw [sanitize_filename, if_pos hs] at hc
      exact hunknown c hc
    · rw [sanitize_filename, if_neg hs] at hc
      have hcf : c ∈ sanitizeFiltered s := by
        by_cases hlen : (sanitizeFiltered s).length > 255
        · rw [if_pos hlen] at hc
          exact List.take_subset _ _ hc
        · rwa [if_neg hlen] at hc
      exact (List.mem_filter.mp hcf).2
  refine ⟨hall, ?_, ?_, ?_, ?_⟩
  · by_cases hs : s.isEmpty
    · rw [sanitize_filename, if_pos hs]
      decide
    · rw [sanitize_filename, if_neg hs]
      by_cases hlen : (sanitizeFiltered s).length > 255
      · rw [if_pos hlen, List.length_take]
        omega
      · rw [if_neg hlen]
        omega
  · intro hc
    exact absurd (hall _ hc) (by decide)
  · intro hc
    exact absurd (hall _ hc) (by decide)
  · intro hs
    subst hs
    rfl

/-- **C10, witness.**  The amended empty-input clause at the concrete empty
input. -/
theorem claim10_sanitize_witness :
    sanitize_filename [] = "unknown".toList :=
  (claim10_sanitize []).2.2.2.2 rfl

/-! ## Claim C3: timestamp-gap turn attribution -/

/-- The relation between consecutive (label, timestamp) pairs asserted by
the spec: the attributed speaker changes exactly when the timestamp gap
exceeds the 1.5 s switch threshold. -/
def attributionRel (p q : String × ℚ) : Prop :=
  q.1 ≠ p.1 ↔ q.2 - p.2 > 3 / 2

theorem identify_speaker_updates_timestamp (st : Option SpeakerState)
    (txt : String) (t : ℚ) :
    (identify_speaker st txt t).2.last_timestamp = t := by
  cases st <;> rfl

theorem identify_speaker_keeps_threshold (s : SpeakerState) (txt : String)
    (t : ℚ) :
    (identify_speaker (some s) txt t).2.switch_threshold
      = s.switch_threshold := rfl

theorem identify_speaker_state_speaker (s : SpeakerState) (txt : String)
    (t : ℚ) :
    (identify_speaker (some s) txt t).2.current_speaker
      = (identify_speaker (some s) txt t).1 := rfl

theorem identify_speaker_change_iff (s : SpeakerState) (txt : String) (t : ℚ) :
    (identify_speaker (some s) txt t).1 ≠ s.current_speaker ↔
      t - s.last_timestamp > s.switch_threshold := by
  simp only [identify_speaker]
  by_cases hgt : t - s.last_timestamp > s.switch_threshold
  · rw [if_pos hgt]
    simp only [hgt, iff_true]
    by_cases hc : s.current_speaker = "Salesperson"
    · rw [if_pos hc, hc]
      decide
    · rw [if_neg hc]
      exact fun e => hc e.symm
  · rw [if_neg hgt]
    simp [hgt]

theorem runAttribution_chain (ts : List ℚ) :
    ∀ s : SpeakerState, s.switch_threshold = 3 / 2 →
      List.Chain' attributionRel
        ((s.current_speaker, s.last_timestamp) ::
          ((runAttribution (some s) ts).1.zip ts)) := by
  induction ts with
  | nil =>
    intro s hth
    simp [runAttribution]
  | cons t rest ih =>
    intro s hth
    simp only [runAttribution, List.zip_cons_cons]
    refine List.chain'_cons.mpr ⟨?_, ?_⟩
    · show (identify_speaker (some s) "" t).1 ≠ s.current_speaker ↔
        t - s.last_timestamp > 3 / 2
      rw [identify_speaker_change_iff, hth]
    · exact ih (identify_speaker (some s) "" t).2
        ((identify_speaker_keeps_threshold s "" t).trans hth)

/-- **C3.**  For every attribution-call sequence with strictly increasing
timestamps: the first call of a session returns `"Salesperson"`; the stored
`last_timestamp` is updated to the call's timestamp on every call (flip or
not); and between consecutive calls the returned label changes exactly when
the timestamp gap exceeds the 1.5 s switch threshold. -/
theorem claim3_turn_attribution (ts : List ℚ)
    (hinc : List.Chain' (· < ·) ts) :
    (∀ (st : Option SpeakerState) (txt : String) (t : ℚ),
      (identify_speaker st txt t).2.last_timestamp = t) ∧
    (runAttribution none ts).1.head? = ts.head?.map (fun _ => "Salesperson") ∧
    List.Chain' attributionRel ((runAttribution none ts).1.zip ts) := by
  clear hinc
  refine ⟨identify_speaker_updates_timestamp, ?_, ?_⟩
  · cases ts with
    | nil => rfl
    | cons t rest => rfl
  · cases ts with
    | nil => simp [runAttribution]
    | cons t rest =>
      simp only [runAttribution, List.zip_cons_cons]
      exact runAttribution_chain rest (identify_speaker none "" t).2 rfl

/-- **C3, witness.**  The theorem at timestamps `[0, 1, 3]` (gaps 1 s and
2 s: no flip, then flip). -/
theorem claim3_turn_attribution_witness :
    (runAttribution none [(0 : ℚ), 1, 3]).1.head?
        = ([(0 : ℚ), 1, 3].head?).map (fun _ => "Salesperson") ∧
    List.Chain' attributionRel
      ((runAttribution none [(0 : ℚ), 1, 3]).1.zip [(0 : ℚ), 1, 3]) := by
  have h := claim3_turn_attribution [(0 : ℚ), 1, 3]
    (by norm_num [List.chain'_cons, List.chain'_singleton])
  exact ⟨h.2.1, h.2.2⟩

/-! ## Claim C4: progression bias window -/

/-- The stage immediately following `p` in the fixed order (`none` for the
last stage or an unknown stage); used to state the amended bias window. -/
def nextStage (p : String) : Option String :=
  match stageOrder.indexOf? p with
  | none => none
  | some ci => (stageOrder.drop (ci + 1)).head?

/-- **C4, counterexample.**  With previous stage `"opening"`, the stage
`"pitch"` — the second stage following it, inside the claimed 2-stage
lookahead window — receives no bias: `range(current_index,
min(current_index + 2, 5))` covers only the previous stage and the single
next one. -/
theorem claim4_counterexample :
    ¬ (stageScore (recentText3 [⟨"x", "Salesperson", 0⟩]) (some "opening") "pitch"
        = keywordScore (recentText3 [⟨"x", "Salesperson", 0⟩]) "pitch" + 15) := by
  decide

/-- **C4, amended.**  When a previous stage is supplied, the bias adds 15 to
the score of the previous stage and of the *single* stage immediately
following it in the fixed order (none when the previous stage is `close`),
and no other stage's score is changed: the loop bound
`min(current_index + 2, len(stage_order))` gives a 1-stage, not 2-stage,
lookahead. -/
theorem claim4_progression_bias (recentText : List Char) (p : String)
    (hp : p ∈ stageOrder) (s : String) :
    stageScore recentText (some p) s =
      keywordScore recentText s +
        (if s = p ∨ nextStage p = some s then 15 else 0) := by
  fin_cases hp
  · have hb : boostedStages (some "opening") = ["opening", "discovery"] := by decide
    have hn : nextStage "opening" = some "discovery" := by decide
    simp only [stageScore, progressionBias, hb, hn]
    congr 1
    by_cases h1 : s = "opening" <;> by_cases h2 : s = "discovery" <;>
      simp [h1, h2, eq_comm]
  · have hb : boostedStages (some "discovery") = ["discovery", "pitch"] := by decide
    have hn : nextStage "discovery" = some "pitch" := by decide
    simp only [stageScore, progressionBias, hb, hn]
    congr 1
    by_cases h1 : s = "discovery" <;> by_cases h2 : s = "pitch" <;>
      simp [h1, h2, eq_comm]
  · have hb : boostedStages (some "pitch") = ["pitch", "objection"] := by decide
    have hn : nextStage "pitch" = some "objection" := by decide
    simp only [stageScore, progressionBias, hb, hn]
    congr 1
    by_cases h1 : s = "pitch" <;> by_cases h2 : s = "objection" <;>
      simp [h1, h2, eq_comm]
  · have hb : boostedStages (some "objection") = ["objection", "close"] := by decide
    have hn : nextStage "objection" = some "close" := by decide
    simp only [stageScore, progressionBias, hb, hn]
    congr 1
    by_cases h1 : s = "objection" <;> by_cases h2 : s = "close" <;>
      simp [h1, h2, eq_comm]
  · have hb : boostedStages (some "close") = ["close"] := by decide
    have hn : nextStage "close" = none := by decide
    simp only [stageScore, progressionBias, hb, hn]
    congr 1
    by_cases h1 : s = "close" <;> simp [h1]

/-- **C4, witness.**  The amended bias at previous stage `"opening"` and
scored stage `"pitch"` (outside the 1-stage window, so no bias). -/
theorem claim4_progression_bias_witness :
    stageScore [] (some "opening") "pitch" =
      keywordScore [] "pitch" +
        (if "pitch" = "opening" ∨ nextStage "opening" = some "pitch"
         then 15 else 0) :=
  claim4_progression_bias [] "opening" (by decide) "pitch"

/-! ## Claim C5: stage classification -/

/-- **C5.**  Stage classification returns `{opening, 100, 0}` for an empty
message list.  Otherwise, writing `m` for the maximum stage score over the
lower-cased concatenation of the last 3 messages (+10 per keyword hit plus
any progression bias): if `m = 0` the result is `{discovery, 50, 0}`, and
if `m ≠ 0` the winning stage is one of the five stages, attains `m`, every
stage declared before it scores strictly below `m` (first-declared-order
tie-break), and the confidence is `min m 100`.  The three example texts
classify as `discovery` (confidence 30, non-zero), `objection` and
`close`. -/
theorem claim5_stage_classification :
    (∀ prev, detect_call_stage [] prev
        = { stage := "opening", confidence := 100, time_in_stage := 0 }) ∧
    (∀ (ctx : List Message) (prev : Option String), ctx ≠ [] →
      (maxStageScore (recentText3 ctx) prev = 0 →
        detect_call_stage ctx prev
          = { stage := "discovery", confidence := 50, time_in_stage := 0 }) ∧
      (maxStageScore (recentText3 ctx) prev ≠ 0 →
        ∃ r, (detect_call_stage ctx prev).stage = r ∧ r ∈ stageOrder ∧
          stageScore (recentText3 ctx) prev r
            = maxStageScore (recentText3 ctx) prev ∧
          (∀ s ∈ stageOrder.takeWhile (fun s => !(s == r)),
            stageScore (recentText3 ctx) prev s
              < maxStageScore (recentText3 ctx) prev) ∧
          (detect_call_stage ctx prev).confidence
            = min (maxStageScore (recentText3 ctx) prev) 100)) ∧
    detect_call_stage
        [⟨"How many calls do you receive per day? What challenges are you facing?",
          "Salesperson", 0⟩] none
      = { stage := "discovery", confidence := 30, time_in_stage := 0 } ∧
    (detect_call_stage
        [⟨"That sounds expensive. I\x27m not interested right now.",
          "Customer", 0⟩] none).stage = "objection" ∧
    (detect_call_stage
        [⟨"Would you like to start a trial? Let\x27s schedule a demo.",
          "Salesperson", 0⟩] none).stage = "close" := by
  refine ⟨fun prev => rfl, ?_, by decide, by decide, by decide⟩
  intro ctx prev hctx
  have hne : ¬ (ctx.isEmpty = true) := by
    simpa [List.isEmpty_iff] using hctx
  constructor
  · intro h0
    rw [detect_call_stage, if_neg hne, if_pos h0]
  · intro hm
    have hmem : maxStageScore (recentText3 ctx) prev
        ∈ stageOrder.map (stageScore (recentText3 ctx) prev) := by
      rcases foldl_max_eq_init_or_mem
          (stageOrder.map (stageScore (recentText3 ctx) prev)) 0 with h | h
      · exact absurd h hm
      · exact h
    have hle : ∀ s ∈ stageOrder,
        stageScore (recentText3 ctx) prev s
          ≤ maxStageScore (recentText3 ctx) prev :=
      fun s hs => foldl_max_le_of_mem (List.mem_map_of_mem _ hs) 0
    rcases find_first_max hmem hle with ⟨r, hfind, hrmem, hfr, htw⟩
    refine ⟨r, ?_, hrmem, hfr, ?_, ?_⟩
    · rw [detect_call_stage, if_neg hne, if_neg hm]
      simp [hfind]
    · intro s hs
      exact Nat.lt_of_le_of_ne
        (hle s (List.takeWhile_subset _ hs)) (htw s hs)
    · rw [detect_call_stage, if_neg hne, if_neg hm]

/-- **C5, witness.**  The zero-score clause at a concrete one-message
context with no keyword hits and no previous stage. -/
theorem claim5_stage_classification_witness :
    detect_call_stage [⟨"xyz", "Salesperson", 0⟩] none
      = { stage := "discovery", confidence := 50, time_in_stage := 0 } :=
  (claim5_stage_classification.2.1 [⟨"xyz", "Salesperson", 0⟩] none
    (by decide)).1 (by decide)

/-! ## Claims C8/C9: objective tracking -/

theorem mem_track_completed {ctx : List Message} {stageR : StageResult}
    {o : CompletedObjective} :
    o ∈ (track_objectives ctx stageR).completed ↔
      ∃ obj ∈ CALL_OBJECTIVES stageR.stage,
        objectiveHit (allLowerText ctx) obj = true ∧
        o = { id := obj.id, text := obj.text } := by
  simp only [track_objectives, List.mem_map, List.mem_filter]
  constructor
  · rintro ⟨obj, ⟨hmem, hhit⟩, heq⟩
    exact ⟨obj, hmem, hhit, heq.symm⟩
  · rintro ⟨obj, hmem, hhit, heq⟩
    exact ⟨obj, ⟨hmem, hhit⟩, heq.symm⟩

theorem mem_track_remaining {ctx : List Message} {stageR : StageResult}
    {r : RemainingObjective} :
    r ∈ (track_objectives ctx stageR).remaining ↔
      ∃ obj ∈ CALL_OBJECTIVES stageR.stage,
        objectiveHit (allLowerText ctx) obj = false ∧
        r = { id := obj.id, text := obj.text, priority := "high" } := by
  simp only [track_objectives, List.mem_map, List.mem_filter,
    Bool.not_eq_true']
  constructor
  · rintro ⟨obj, ⟨hmem, hhit⟩, heq⟩
    exact ⟨obj, hmem, hhit, heq.symm⟩
  · rintro ⟨obj, hmem, hhit, heq⟩
    exact ⟨obj, ⟨hmem, hhit⟩, heq.symm⟩

theorem objectiveHit_append (ctx more : List Message) (obj : Objective)
    (h : objectiveHit (allLowerText ctx) obj = true) :
    objectiveHit (allLowerText (ctx ++ more)) obj = true := by
  rcases allLowerText_append ctx more with ⟨ext, hext⟩
  rw [hext]
  simp only [objectiveHit, List.any_eq_true] at h ⊢
  rcases h with ⟨k, hk, hc⟩
  exact ⟨k, hk, containsSub_append ext hc⟩

/-- **C8.**  Objective tracking is monotonic in the conversation text: an
objective reported completed for some message list (at a fixed stage) is
still reported completed after appending further messages, since a keyword
occurring as a substring of the joined lower-cased text still occurs in
any extension of it. -/
theorem claim8_objective_monotonic (stageR : StageResult)
    (ctx more : List Message) (o : CompletedObjective)
    (h : o ∈ (track_objectives ctx stageR).completed) :
    o ∈ (track_objectives (ctx ++ more) stageR).completed := by
  rcases mem_track_completed.mp h with ⟨obj, hmem, hhit, heq⟩
  exact mem_track_completed.mpr
    ⟨obj, hmem, objectiveHit_append ctx more obj hhit, heq⟩

/-- **C8, witness.**  Monotonicity at a concrete conversation:
`qualify_volume`, completed by the first message, stays completed after a
second message is appended. -/
theorem claim8_objective_monotonic_witness :
    ({ id := "qualify_volume", text := "Qualify call volume" } :
        CompletedObjective)
      ∈ (track_objectives
          ([⟨"We get about 100 calls per week", "Customer", 0⟩] ++
            [⟨"Thanks for your time", "Salesperson", 1⟩])
          { stage := "discovery", confidence := 0, time_in_stage := 0 }).completed :=
  claim8_objective_monotonic
    { stage := "discovery", confidence := 0, time_in_stage := 0 }
    [⟨"We get about 100 calls per week", "Customer", 0⟩]
    [⟨"Thanks for your time", "Salesperson", 1⟩]
    { id := "qualify_volume", text := "Qualify call volume" } (by decide)

/-- **C9.**  Objective tracking for a stage tests each configured
objective's trigger keywords as substrings of the full lower-cased
conversation text: objectives with a hit land in `completed` (id and
description), the rest in `remaining` (id, description, priority "high"),
with an empty checklist for unknown stages; and the concrete
discovery-stage conversation marks `qualify_volume` and `identify_pain`
completed and `current_solution` remaining. -/
theorem claim9_track_objectives :
    (∀ (ctx : List Message) (stageR : StageResult),
      stageR.stage ∉ stageOrder →
        track_objectives ctx stageR = { completed := [], remaining := [] }) ∧
    (∀ (ctx : List Message) (stageR : StageResult) (o : CompletedObjective),
      o ∈ (track_objectives ctx stageR).completed ↔
        ∃ obj ∈ CALL_OBJECTIVES stageR.stage,
          objectiveHit (allLowerText ctx) obj = true ∧
          o = { id := obj.id, text := obj.text }) ∧
    (∀ (ctx : List Message) (stageR : StageResult) (r : RemainingObjective),
      r ∈ (track_objectives ctx stageR).remaining ↔
        ∃ obj ∈ CALL_OBJECTIVES stageR.stage,
          objectiveHit (allLowerText ctx) obj = false ∧
          r = { id := obj.id, text := obj.text, priority := "high" }) ∧
    track_objectives
        [⟨"We get about 100 calls per week", "Customer", 0⟩,
         ⟨"What\x27s your biggest problem?", "Salesperson", 1⟩]
        { stage := "discovery", confidence := 0, time_in_stage := 0 }
      = { completed := [⟨"qualify_volume", "Qualify call volume"⟩,
                        ⟨"identify_pain", "Identify pain point"⟩],
          remaining :=
            [⟨"current_solution", "Understand current solution", "high"⟩] } := by
  refine ⟨?_, fun ctx stageR o => mem_track_completed,
    fun ctx stageR r => mem_track_remaining, by decide⟩
  intro ctx stageR hst
  have hempty : CALL_OBJECTIVES stageR.stage = [] := by
    simp only [stageOrder, List.mem_cons, List.not_mem_nil, or_false,
      not_or] at hst
    rw [CALL_OBJECTIVES, if_neg hst.1, if_neg hst.2.1, if_neg hst.2.2.1,
      if_neg hst.2.2.2.1, if_neg hst.2.2.2.2]
  simp [track_objectives, hempty]

/-- **C9, witness.**  The unknown-stage clause at a concrete unknown stage
name. -/
theorem claim9_track_objectives_witness :
    track_objectives []
        { stage := "smalltalk", confidence := 0, time_in_stage := 0 }
      = { completed := [], remaining := [] } :=
  claim9_track_objectives.1 []
    { stage := "smalltalk", confidence := 0, time_in_stage := 0 } (by decide)

/-! ## Claim C1: deterministic fallback on total provider failure -/

/-- The claim's failure hypothesis for one legacy-mode call: the external
call raised, the response was not decodable JSON, or the decoded payload
misses one of the fields `_parse_response` requires. -/
def legacyCallFailed (r : Except Unit (Option LegacySuggestion)) : Prop :=
  match r with
  | .error _ => True
  | .ok none => True
  | .ok (some s) =>
      s.primary_suggestion = none ∨ s.context = none ∨
      ∃ p, s.primary_suggestion = some p ∧
        (p.text = none ∨ p.reasoning = none ∨ p.confidence = none)

/-- The claim's failure hypothesis for one guidance-mode call: the external
call raised, or the payload fails `_parse_coaching_response` (not decodable
JSON, or missing one of the five required fields). -/
def guidanceCallFailed (r : Except Unit (Option CoachingResponse)) : Prop :=
  match r with
  | .error _ => True
  | .ok decoded => parse_coaching_response decoded = none

/-- **C1.**  When the external suggestion generator fails (raises or
returns an unparseable/invalid payload), both coaching paths still return
a suggestion — the functions are total, so no exception propagates — and
that suggestion is exactly the static fallback: in legacy mode the fixed
fallback payload with confidence 50; in guidance mode the fallback keyed by
the just-classified stage with confidence 70, whose content defaults to the
`discovery` table entry for any stage outside the five known ones. -/
theorem claim1_fallback_on_provider_failure
    (rL : Except Unit (Option LegacySuggestion))
    (rG : Except Unit (Option CoachingResponse))
    (ctx : List Message) (prev : Option String) (now : Nat)
    (hL : legacyCallFailed rL) (hG : guidanceCallFailed rG) :
    get_suggestion rL = fallback_suggestion ∧
    (get_suggestion rL).primary_suggestion.bind PrimarySuggestionDict.confidence
      = some 50 ∧
    get_coaching_guidance ctx prev rG now
      = get_fallback_guidance (detect_call_stage ctx prev).stage now ∧
    (get_coaching_guidance ctx prev rG now).stage.confidence = 70 ∧
    (get_coaching_guidance ctx prev rG now).guidance.confidence = 70 ∧
    (∀ (stage : String) (now2 : Nat), stage ∉ stageOrder →
      (get_fallback_guidance stage now2).guidance =
        { direction := fallbackDiscovery.direction,
          key_questions := fallbackDiscovery.key_questions,
          talking_points := fallbackDiscovery.talking_points,
          confidence := 70 }) := by
  have hleg : get_suggestion rL = fallback_suggestion := by
    match rL with
    | .error _ => rfl
    | .ok none => rfl
    | .ok (some s) =>
      simp only [legacyCallFailed] at hL
      rcases hps : s.primary_suggestion with _ | p
      · simp [get_suggestion, parse_response, hps]
      · rcases hL with h | h | ⟨p', hp', hmiss⟩
        · rw [hps] at h
          exact Option.noConfusion h
        · simp [get_suggestion, parse_response, hps, h]
        · have hpp : p' = p := by
            rw [hp'] at hps
            exact Option.some.inj hps
          subst hpp
          rcases hmiss with hm | hm | hm <;>
            simp [get_suggestion, parse_response, hps, hm]
  have hg : get_coaching_guidance ctx prev rG now
      = get_fallback_guidance (detect_call_stage ctx prev).stage now := by
    match rG with
    | .error _ => rfl
    | .ok decoded =>
      simp only [guidanceCallFailed] at hG
      simp [get_coaching_guidance, hG]
  refine ⟨hleg, ?_, hg, ?_, ?_, ?_⟩
  · rw [hleg]
    rfl
  · rw [hg]
    rfl
  · rw [hg]
    rfl
  · intro stage now2 hst
    simp only [stageOrder, List.mem_cons, List.not_mem_nil, or_false,
      not_or] at hst
    have hm : fallback_map stage = none := by
      rw [fallback_map, if_neg hst.1, if_neg hst.2.1, if_neg hst.2.2.1,
        if_neg hst.2.2.2.1, if_neg hst.2.2.2.2]
    simp [get_fallback_guidance, hm]

/-- **C1, witness.**  Both failure hypotheses discharged at the concrete
always-raising provider. -/
theorem claim1_fallback_on_provider_failure_witness :
    get_suggestion (.error ()) = fallback_suggestion ∧
    (get_coaching_guidance [] none (.error ()) 0).stage.confidence = 70 := by
  have h := claim1_fallback_on_provider_failure (.error ()) (.error ())
    [] none 0 (by trivial) (by trivial)
  exact ⟨h.1, h.2.2.2.1⟩

end SalesCoach
